import Mathlib

/-!
Verification of the dataset query layer of an education-statistics dashboard
(`api.py`, `utils.py`).  The Python functions are shallowly embedded as
executable Lean definitions: dictionaries become association lists in
insertion order, `None`-able values become `Option`, JSON scalars become an
inductive type, pandas `DataFrame`s become a record of an ordered column list
and a row list, and the process-global `OrderedDict` result cache becomes an
explicit association list threaded through the functions.
-/

/-! ## Character-list string primitives

Python string operations (`in`, `split`, `startswith`) are embedded as
structurally recursive functions on `List Char`, so that every definition
reduces inside the kernel. -/

/-- Embeds Python `haystack.startswith(needle)` restricted to the front of a
character list: `startsWithL needle l` is true iff `needle` is an initial
segment of `l`. -/
def startsWithL : List Char → List Char → Bool
  | [], _ => true
  | _ :: _, [] => false
  | a :: as, b :: bs => a == b && startsWithL as bs

/-- Embeds Python `s.split(sep, 1)`: splits at the first occurrence of `sep`,
returning the part before and the part after, or `none` when `sep` does not
occur. -/
def splitOnceL (sep : List Char) : List Char → Option (List Char × List Char)
  | [] => none
  | c :: cs =>
      if startsWithL sep (c :: cs) then some ([], List.drop sep.length (c :: cs))
      else (splitOnceL sep cs).map (fun p => (c :: p.1, p.2))

/-- Embeds Python `needle in haystack` for a nonempty haystack scan:
true iff `needle` occurs as a contiguous segment of the list. -/
def occursInL (needle : List Char) : List Char → Bool
  | [] => startsWithL needle []
  | c :: cs => startsWithL needle (c :: cs) || occursInL needle cs

/-- Lexicographic order on character lists by code point, embedding the order
Python string comparison (and hence `sorted` on strings) uses. -/
def charListLeB : List Char → List Char → Bool
  | [], _ => true
  | _ :: _, [] => false
  | a :: as, b :: bs => decide (a < b) || (a == b && charListLeB as bs)

/-- Python `<=` on strings: lexicographic by code point. -/
def strLeB (a b : String) : Bool :=
  charListLeB a.data b.data

/-- The `" :: "` composite-value separator used throughout the upstream API. -/
def sepChars : List Char := " :: ".data

/-- Embeds `utils.extract_filter_id`: the part of a composite `"id :: label"`
value before the first `" :: "`, or the whole string when the separator is
absent.  (The Python function first passes through `pd.isna`; the missing-value
case is handled at the call sites, where column access yields `Option String`.) -/
def extract_filter_id (s : String) : String :=
  match splitOnceL sepChars s.data with
  | some p => String.mk p.1
  | none => s

/-! ## Numeric parsing

`period_to_datetime` uses Python `int(...)` and the record normalizer uses
Python `float(...)`.  Both are embedded on decimal literals (optional sign,
digits, and for `float` an optional fractional part); exotic accepted forms
(whitespace padding, underscores, exponents, `inf`/`nan`) do not occur in this
system's period labels or API values and are not modelled. -/

/-- Accumulates a decimal digit string; fails on any non-digit. -/
def parseDigitsAux : List Char → Nat → Option Nat
  | [], acc => some acc
  | c :: cs, acc =>
      if c.isDigit then parseDigitsAux cs (acc * 10 + (c.toNat - 48)) else none

/-- Parses a nonempty all-digit character list as a natural number. -/
def parseDigits : List Char → Option Nat
  | [] => none
  | c :: cs => parseDigitsAux (c :: cs) 0

/-- Embeds Python `int(...)` on decimal integer literals with optional sign. -/
def parseIntL : List Char → Option Int
  | '-' :: cs => (parseDigits cs).map (fun n => -(n : Int))
  | '+' :: cs => (parseDigits cs).map (fun n => (n : Int))
  | cs => (parseDigits cs).map (fun n => (n : Int))

/-- Parses the digits after the decimal point, returning value and digit count. -/
def parseFracAux : List Char → Nat → Nat → Option (Nat × Nat)
  | [], acc, pow => some (acc, pow)
  | c :: cs, acc, pow =>
      if c.isDigit then parseFracAux cs (acc * 10 + (c.toNat - 48)) (pow + 1) else none

/-- Parses an unsigned decimal literal (`"42"`, `"4.5"`, `"4."`, `".5"`) as a
rational; fails when no digit is present or a non-digit occurs. -/
def parseFloatMag (cs : List Char) : Option Rat :=
  match splitOnceL ['.'] cs with
  | none => (parseDigits cs).map (fun n => (n : Rat))
  | some p =>
      match p.1, p.2 with
      | [], [] => none
      | ip, fp =>
          let ipv : Option Nat := if ip.isEmpty then some 0 else parseDigits ip
          let fpv : Option (Nat × Nat) := if fp.isEmpty then some (0, 0) else parseFracAux fp 0 0
          match ipv, fpv with
          | some i, some fq => some ((i : Rat) + (fq.1 : Rat) / ((10 : Rat) ^ fq.2))
          | _, _ => none

/-- Embeds Python `float(...)` on signed decimal literals.  Exactly the values
the record normalizer meets: numeric strings parse, sentinel strings such as
`"suppressed"` do not. -/
def parseFloatL : List Char → Option Rat
  | '-' :: cs => (parseFloatMag cs).map (fun q => -q)
  | '+' :: cs => parseFloatMag cs
  | cs => parseFloatMag cs

/-! ## Time-period parsing -/

/-- Embeds `utils.period_to_datetime`.  A label containing `/` contributes the
year before the first `/`; otherwise the whole label is the year; the result is
the calendar point September 1 of that year as a `(year, month, day)` triple.
Parse failure returns `none` (pandas `NaT`).  The year-range guard reproduces
pandas `Timestamp` bounds (`OutOfBoundsDatetime` and invalid-year `ValueError`
are both caught by the Python function and mapped to `NaT`): September 1 of
year `y` is representable exactly for `1678 ≤ y ≤ 2261`. -/
def period_to_datetime (p : String) : Option (Nat × Nat × Nat) :=
  let yearStr : List Char :=
    match splitOnceL ['/'] p.data with
    | some q => q.1
    | none => p.data
  match parseIntL yearStr with
  | none => none
  | some y => if 1678 ≤ y ∧ y ≤ 2261 then some (y.toNat, 9, 1) else none

/-! ## Data model

JSON values met by the record normalizer, the normalized row, and the raw API
record shape consumed by `query_dataset` (`results` entries of a query
response). -/

/-- A JSON scalar inside a record's `values` mapping: `null`, a string, or a
number (numbers are embedded as rationals). -/
inductive JVal
  | jnull
  | jstr (s : String)
  | jnum (q : Rat)
deriving DecidableEq, Repr

/-- The indicator value stored in a normalized row: a parsed number or a
retained sentinel string. -/
inductive IndVal
  | num (q : Rat)
  | str (s : String)
deriving DecidableEq, Repr

/-- Embeds Python `float(val)` as used by the normalizer: numbers pass through,
strings are parsed as decimal literals, `null` fails (`TypeError`). -/
def pyFloat : JVal → Option Rat
  | .jnum q => some q
  | .jstr s => parseFloatL s.data
  | .jnull => none

/-- One raw API result record (`results` list entry).  Mappings are embedded as
association lists in JSON insertion order; an absent `timePeriod.period` or
`geographicLevel` is `none`. -/
structure RawRecord where
  timePeriod : Option String
  geographicLevel : Option String
  locations : List (String × String)
  values : List (String × JVal)
  filters : List (String × String)
deriving DecidableEq, Repr

/-- One normalized row of the result table.  `filterCols` holds the
`filter_<dimensionId>` columns with their raw composite values, in record
order. -/
structure Row where
  timePeriod : String
  geographicLevel : String
  locationName : String
  indicatorValue : IndVal
  filterCols : List (String × String)
deriving DecidableEq, Repr

/-- Embeds the indicator-value scan of `query_dataset`: the first key of the
`values` mapping containing `indicatorId` as a substring decides the value;
a parsed number is kept as a number, an unparseable non-null value as a string,
and `null` (or no matching key) yields `none`. -/
def findIndicatorValue (indicatorId : String) (values : List (String × JVal)) : Option IndVal :=
  match values.find? (fun p => occursInL indicatorId.data p.1.data) with
  | none => none
  | some kv =>
      match pyFloat kv.2 with
      | some q => some (.num q)
      | none =>
          match kv.2 with
          | .jstr s => some (.str s)
          | _ => none

/-- Embeds the per-record normalization of `query_dataset`: defaults the time
period, geographic level and location name to `"Unknown"`, prefixes filter
columns with `filter_`, and drops the record (`none`) when no indicator value
was found. -/
def normalizeRecord (indicatorId : String) (r : RawRecord) : Option Row :=
  match findIndicatorValue indicatorId r.values with
  | none => none
  | some iv =>
      some
        { timePeriod := r.timePeriod.getD "Unknown"
          geographicLevel := r.geographicLevel.getD "Unknown"
          locationName := ((r.locations.head?).map Prod.snd).getD "Unknown"
          indicatorValue := iv
          filterCols := r.filters.map (fun p => ("filter_" ++ p.1, p.2)) }

/-- Embeds the record-to-table loop of `query_dataset`: normalizes each record
in order and keeps only the records with an indicator value. -/
def normalizeRecords (indicatorId : String) (rs : List RawRecord) : List Row :=
  rs.filterMap (normalizeRecord indicatorId)

/-! ## DataFrame model and client-side filtering -/

/-- A pandas `DataFrame` as used here: the ordered column list (fixed at
construction, unchanged by row filtering) and the rows. -/
structure DF where
  cols : List String
  rows : List Row
deriving DecidableEq, Repr

/-- Column list of `pd.DataFrame(records)`: the four base columns followed by
the filter columns in order of first appearance across the rows. -/
def collectCols (rows : List Row) : List String :=
  rows.foldl
    (fun acc r => acc ++ (r.filterCols.map Prod.fst).filter (fun c => !acc.contains c)) []

/-- Builds the normalized `DataFrame` from the normalized rows, reproducing the
column order of `pd.DataFrame(records)` in `query_dataset`. -/
def mkDF (indicatorId : String) (rows : List Row) : DF :=
  { cols := ["time_period", "geographic_level", "location_name", indicatorId] ++ collectCols rows
    rows := rows }

/-- One filter dimension's criteria dict: an optional `"in"` list and an
optional `"eq"` value, mirroring the Python dict that may carry either key. -/
structure FilterCriteria where
  inVals : Option (List String)
  eqVal : Option String
deriving DecidableEq, Repr

/-- A row's value at a filter column; `none` embeds the pandas `NaN` a row gets
when the column exists in the frame but not in this record. -/
def rowVal (r : Row) (c : String) : Option String :=
  (r.filterCols.find? (fun p => p.1 == c)).map Prod.snd

/-- Embeds the column scan of the filtering loop in `query_dataset`: the first
column in column order whose name starts with `filter_<name>`. -/
def findMatchingCol (cols : List String) (name : String) : Option String :=
  cols.find? (fun c => startsWithL ("filter_" ++ name).data c.data)

/-- Embeds one iteration of the filtering loop of `query_dataset`: keep rows
whose extracted filter id is in the allowed set (`"in"`) or equals the target
(`"eq"`); with no matching column the frame is returned unchanged.  A missing
value (`NaN`) never satisfies either predicate, as with pandas `isin`/`==`. -/
def applyOneFilter (df : DF) (name : String) (crit : FilterCriteria) : DF :=
  match findMatchingCol df.cols name with
  | none => df
  | some c =>
      match crit.inVals with
      | some allowed =>
          { df with
            rows := df.rows.filter (fun r =>
              match rowVal r c with
              | some s => decide (extract_filter_id s ∈ allowed)
              | none => false) }
      | none =>
          match crit.eqVal with
          | some v =>
              { df with
                rows := df.rows.filter (fun r =>
                  match rowVal r c with
                  | some s => decide (extract_filter_id s = v)
                  | none => false) }
          | none => df

/-- Embeds the client-side filtering loop of `query_dataset`: the dimensions
are applied sequentially in mapping order. -/
def applyFilters (df : DF) (fs : List (String × FilterCriteria)) : DF :=
  fs.foldl (fun d p => applyOneFilter d p.1 p.2) df

/-! ## Pagination -/

/-- One warning object of a query response. -/
structure Warning where
  code : String
  message : String
deriving DecidableEq, Repr

/-- One page of a query response: `results`, `paging.totalPages` (absent
`paging` or absent `totalPages` is `none`, defaulted to 1 by the loop), and
`warnings`. -/
structure PageResponse where
  results : List RawRecord
  totalPages : Option Nat
  warnings : List Warning
deriving Repr

/-- Embeds the warning scan of the pagination loop: true iff some warning
carries the no-data code `"NoResults"`. -/
def hasNoResults (ws : List Warning) : Bool :=
  ws.any (fun w => w.code == "NoResults")

/-- Outcome of the pagination loop: the pages fetched so far plus either the
no-data failure (`ValueError` in the source, no records returned), the
accumulated records, or fuel exhaustion (a modelling artifact: the Python
`while` loop has no fuel; every theorem supplies enough). -/
inductive FetchOutcome
  | noData (calls : List Nat)
  | done (calls : List Nat) (records : List RawRecord)
  | fuelOut
deriving Repr

/-- Embeds the `while page <= total_pages` pagination loop of `query_dataset`.
State: remaining fuel, current page, current total-page count, pages fetched so
far, records accumulated so far.  Each iteration fetches the page, fails fast
on a `"NoResults"` warning, then updates the total-page count from the response
(default 1) and appends the page's records. -/
def paginateLoop (fetch : Nat → PageResponse) :
    Nat → Nat → Nat → List Nat → List RawRecord → FetchOutcome
  | 0, page, totalPages, calls, acc =>
      if page ≤ totalPages then FetchOutcome.fuelOut else FetchOutcome.done calls acc
  | fuel + 1, page, totalPages, calls, acc =>
      if page ≤ totalPages then
        let data := fetch page
        if hasNoResults data.warnings then FetchOutcome.noData (calls ++ [page])
        else
          paginateLoop fetch fuel (page + 1) (data.totalPages.getD 1)
            (calls ++ [page]) (acc ++ data.results)
      else FetchOutcome.done calls acc

/-- Embeds the whole pagination phase of `query_dataset`: page 1 first, total
pages assumed 1 until a response reports otherwise. -/
def fetchAllPages (fetch : Nat → PageResponse) (fuel : Nat) : FetchOutcome :=
  paginateLoop fetch fuel 1 1 [] []

/-! ## Chronological sort -/

/-- Ascending order on parsed time points with the pandas `sort_values`
treatment of missing values: `NaT` (`none`) sorts after every real point. -/
def tsLeB (a b : Option (Nat × Nat × Nat)) : Bool :=
  match a, b with
  | none, none => true
  | some _, none => true
  | none, some _ => false
  | some x, some y =>
      decide (x.1 < y.1) ||
        (decide (x.1 = y.1) &&
          (decide (x.2.1 < y.2.1) ||
            (decide (x.2.1 = y.2.1) && decide (x.2.2 ≤ y.2.2))))

/-- A row after the time-axis step: the parsed `time_period` value (the column
is overwritten in place in the source) paired with the rest of the row. -/
abbrev ChronoRow := Option (Nat × Nat × Nat) × Row

/-- Embeds the time-axis step of `query_dataset`: parse every row's
`time_period` with `period_to_datetime`, then sort the rows ascending by the
parsed point (`df.sort_values`, missing values last). -/
def toChronological (rows : List Row) : List ChronoRow :=
  List.insertionSort (fun a b : ChronoRow => tsLeB a.1 b.1 = true)
    (rows.map (fun r => (period_to_datetime r.timePeriod, r)))

/-! ## Result cache

`query_cache` is a process-global `OrderedDict`; it is embedded as an
association list in insertion order, threaded explicitly.  Capacity is 50 with
FIFO eviction. -/

/-- Embeds `OrderedDict` item assignment `d[k] = v`: an existing key keeps its
position and gets the new value, a new key is appended at the end. -/
def odSet {κ α : Type} [DecidableEq κ] (cs : List (κ × α)) (k : κ) (v : α) : List (κ × α) :=
  if cs.any (fun p => decide (p.1 = k)) then
    cs.map (fun p => if p.1 = k then (k, v) else p)
  else cs ++ [(k, v)]

/-- Embeds `cache_key in query_cache` / `query_cache[cache_key]`: lookup by
key, position-independent. -/
def cacheGet {κ α : Type} [DecidableEq κ] (cs : List (κ × α)) (k : κ) : Option α :=
  (cs.find? (fun p => decide (p.1 = k))).map Prod.snd

/-- Embeds the cache store of `query_dataset`: when the cache already holds at
least 50 entries the oldest-inserted entry (`popitem(last=False)`) is removed,
then the new entry is assigned. -/
def cachePut {κ α : Type} [DecidableEq κ] (cs : List (κ × α)) (k : κ) (v : α) : List (κ × α) :=
  odSet (if 50 ≤ cs.length then cs.drop 1 else cs) k v

/-! ## Cache key -/

/-- A value inside one filter dimension's criteria dict: the `"in"` list keeps
its order, scalars are strings.  This is the shape `query_dataset` receives for
its `filters` argument, the only argument `make_hashable` is applied to. -/
inductive CritVal
  | vlist (items : List String)
  | vstr (s : String)
deriving DecidableEq, Repr

/-- The `filters` argument of `query_dataset`: filter dimension id → criteria
dict, both levels in insertion order. -/
abbrev FiltersArg := List (String × List (String × CritVal))

/-- Sorts association-list entries by key, embedding Python
`tuple(sorted(...))` over dict items (dict keys are unique, so sorting by key
alone is the sort by the full `(key, value)` tuple). -/
def sortByKey {α : Type} (l : List (String × α)) : List (String × α) :=
  List.insertionSort (fun a b => strLeB a.1 b.1 = true) l

/-- Embeds `api.make_hashable` at the type of its call-site argument: dict
levels are sorted by key, list values keep their order, scalars pass through. -/
def make_hashable (filters : FiltersArg) : FiltersArg :=
  sortByKey (filters.map (fun p => (p.1, sortByKey p.2)))

/-- Sorts a string list ascending, embedding Python `tuple(sorted(codes))`. -/
def sortStrings (l : List String) : List String :=
  List.insertionSort (fun a b => strLeB a b = true) l

/-- The cache key tuple built at the top of `query_dataset`. -/
structure CacheKey where
  datasetId : String
  indicatorId : String
  geoLevels : List String
  periods : List String
  filtersKey : Option FiltersArg
deriving DecidableEq, Repr

/-- Embeds the `cache_key` construction of `query_dataset`: geo level codes and
period labels sorted, `filters` made hashable, with a falsy `filters` argument
(absent or empty dict) collapsing to `None`. -/
def cacheKey (datasetId indicatorId : String) (geoLevelCodes periodList : List String)
    (filters : Option FiltersArg) : CacheKey :=
  { datasetId := datasetId
    indicatorId := indicatorId
    geoLevels := sortStrings geoLevelCodes
    periods := sortStrings periodList
    filtersKey :=
      match filters with
      | none => none
      | some [] => none
      | some fs => some (make_hashable fs) }

/-! ## Reference model for table copies

The cached and returned `DataFrame`s are Python objects; to state the
copy-on-read / copy-on-store behavior (`.copy()` at the cache hit and at the
cache store) the tables live in an explicit heap of references, and the result
cache maps keys to references. -/

/-- The chronologically sorted result table, the value `query_dataset` caches
and returns. -/
abbrev Tbl := List ChronoRow

/-- A heap of table objects; a reference is an index into the allocation
list. -/
structure Heap where
  tabs : List Tbl
deriving Repr

/-- Allocates a fresh table object, returning the new heap and the reference. -/
def alloc (h : Heap) (t : Tbl) : Heap × Nat :=
  (⟨h.tabs ++ [t]⟩, h.tabs.length)

/-- Reads the table at a reference. -/
def readT (h : Heap) (r : Nat) : Tbl :=
  h.tabs.getD r []

/-- Mutates the table object at a reference in place. -/
def writeT (h : Heap) (r : Nat) (t : Tbl) : Heap :=
  ⟨h.tabs.set r t⟩

/-- The shared mutable state of the query layer: the heap of table objects and
the result cache mapping cache keys to references. -/
structure QState where
  heap : Heap
  cache : List (CacheKey × Nat)

/-- Embeds the cache skin of `query_dataset` over the reference model, with the
miss-path pipeline (metadata, pagination, normalization, filtering, sort)
abstracted as `compute`.  On a hit the cached table is copied
(`query_cache[cache_key].copy()`) and the copy returned; on a miss the computed
table `df` is allocated, a copy of it is stored (`query_cache[cache_key] =
df.copy()`), and `df` itself is returned. -/
def query_dataset (compute : CacheKey → Tbl) (st : QState) (k : CacheKey) : QState × Nat :=
  match cacheGet st.cache k with
  | some rc =>
      let ret := alloc st.heap (readT st.heap rc)
      (⟨ret.1, st.cache⟩, ret.2)
  | none =>
      let df := compute k
      let a1 := alloc st.heap df
      let a2 := alloc a1.1 (readT a1.1 a1.2)
      (⟨a2.1, cachePut st.cache k a2.2⟩, a1.2)

/-! ## Order lemmas for the embedded sorts -/

/-- Totality of the lexicographic order on character lists. -/
lemma charListLeB_total : ∀ a b : List Char, (charListLeB a b || charListLeB b a) = true := by
  intro a
  induction a with
  | nil => intro b; cases b <;> simp [charListLeB]
  | cons x xs ih =>
    intro b
    cases b with
    | nil => simp [charListLeB]
    | cons y ys =>
      simp only [charListLeB, Bool.or_eq_true, decide_eq_true_eq, Bool.and_eq_true, beq_iff_eq]
      rcases lt_trichotomy x y with h | h | h
      · exact Or.inl (Or.inl h)
      · subst h
        have h2 := ih ys
        simp only [Bool.or_eq_true] at h2
        rcases h2 with h2 | h2
        · exact Or.inl (Or.inr ⟨rfl, h2⟩)
        · exact Or.inr (Or.inr ⟨rfl, h2⟩)
      · exact Or.inr (Or.inl h)

/-- Transitivity of the lexicographic order on character lists. -/
lemma charListLeB_trans :
    ∀ a b c : List Char, charListLeB a b = true → charListLeB b c = true →
      charListLeB a c = true := by
  intro a
  induction a with
  | nil => intro b c _ _; simp [charListLeB]
  | cons x xs ih =>
    intro b c hab hbc
    cases b with
    | nil => simp [charListLeB] at hab
    | cons y ys =>
      cases c with
      | nil => simp [charListLeB] at hbc
      | cons z zs =>
        simp only [charListLeB, Bool.or_eq_true, decide_eq_true_eq, Bool.and_eq_true,
          beq_iff_eq] at hab hbc ⊢
        rcases hab with h1 | ⟨h1e, h1r⟩
        · rcases hbc with h2 | ⟨h2e, h2r⟩
          · exact Or.inl (lt_trans h1 h2)
          · exact Or.inl (h2e ▸ h1)
        · rcases hbc with h2 | ⟨h2e, h2r⟩
          · exact Or.inl (h1e ▸ h2)
          · exact Or.inr ⟨h1e.trans h2e, ih ys zs h1r h2r⟩

/-- Antisymmetry of the lexicographic order on character lists. -/
lemma charListLeB_antisymm :
    ∀ a b : List Char, charListLeB a b = true → charListLeB b a = true → a = b := by
  intro a
  induction a with
  | nil => intro b _ hba; cases b with
    | nil => rfl
    | cons y ys => simp [charListLeB] at hba
  | cons x xs ih =>
    intro b hab hba
    cases b with
    | nil => simp [charListLeB] at hab
    | cons y ys =>
      simp only [charListLeB, Bool.or_eq_true, decide_eq_true_eq, Bool.and_eq_true,
        beq_iff_eq] at hab hba
      rcases hab with h1 | ⟨h1e, h1r⟩
      · rcases hba with h2 | ⟨h2e, h2r⟩
        · exact absurd h1 (asymm h2)
        · exact absurd h1 (h2e ▸ lt_irrefl x)
      · rcases hba with h2 | ⟨h2e, h2r⟩
        · exact absurd h2 (h1e ▸ lt_irrefl y)
        · exact h1e ▸ congrArg (x :: ·) (ih ys h1r h2r)

/-- Totality of `strLeB`. -/
lemma strLeB_total (a b : String) : strLeB a b = true ∨ strLeB b a = true := by
  have h := charListLeB_total a.data b.data
  simp only [Bool.or_eq_true] at h
  exact h

/-- Transitivity of `strLeB`. -/
lemma strLeB_trans (a b c : String) (h1 : strLeB a b = true) (h2 : strLeB b c = true) :
    strLeB a c = true :=
  charListLeB_trans a.data b.data c.data h1 h2

/-- Antisymmetry of `strLeB`. -/
lemma strLeB_antisymm (a b : String) (h1 : strLeB a b = true) (h2 : strLeB b a = true) :
    a = b :=
  String.ext (charListLeB_antisymm a.data b.data h1 h2)

/-- Sorting by the embedded string order is invariant under permutation of the
input: semantically equal sets of codes or labels canonicalize identically. -/
lemma sortStrings_perm_eq (l1 l2 : List String) (h : l1.Perm l2) :
    sortStrings l1 = sortStrings l2 := by
  haveI : IsAntisymm String (fun a b => strLeB a b = true) := ⟨strLeB_antisymm⟩
  haveI : IsTotal String (fun a b => strLeB a b = true) := ⟨strLeB_total⟩
  haveI : IsTrans String (fun a b => strLeB a b = true) := ⟨strLeB_trans⟩
  exact List.eq_of_perm_of_sorted
    ((List.perm_insertionSort _ l1).trans (h.trans (List.perm_insertionSort _ l2).symm))
    (List.sorted_insertionSort _ l1)
    (List.sorted_insertionSort _ l2)

/-- Transitivity of the row order used by the chronological sort. -/
lemma tsLeB_trans (a b c : Option (Nat × Nat × Nat))
    (h1 : tsLeB a b = true) (h2 : tsLeB b c = true) : tsLeB a c = true := by
  obtain _ | ⟨x1, x2, x3⟩ := a <;> obtain _ | ⟨y1, y2, y3⟩ := b <;>
    obtain _ | ⟨z1, z2, z3⟩ := c <;> simp [tsLeB] at * <;> omega

/-- Totality of the row order used by the chronological sort. -/
lemma tsLeB_total (a b : Option (Nat × Nat × Nat)) :
    tsLeB a b = true ∨ tsLeB b a = true := by
  obtain _ | ⟨x1, x2, x3⟩ := a <;> obtain _ | ⟨y1, y2, y3⟩ := b <;>
    simp [tsLeB] <;> omega

/-! ## Concrete fixtures used by witnesses and counterexamples -/

/-- A normalized row whose record carried both a `gender_identity` and a
`gender` filter dimension, in that mapping order. -/
def rowMaleNB : Row :=
  { timePeriod := "2024/2025"
    geographicLevel := "NAT"
    locationName := "England"
    indicatorValue := .num 100
    filterCols := [("filter_gender_identity", "X :: Nonbinary"), ("filter_gender", "M :: Male")] }

/-- A table carrying the two prefix-overlapping filter dimensions. -/
def dfTwoDims : DF := mkDF "IND1" [rowMaleNB]

/-- A male row with only the `gender` dimension. -/
def rowM : Row :=
  { timePeriod := "2024/2025"
    geographicLevel := "NAT"
    locationName := "England"
    indicatorValue := .num 100
    filterCols := [("filter_gender", "M :: Male")] }

/-- A female row with only the `gender` dimension. -/
def rowF : Row :=
  { timePeriod := "2024/2025"
    geographicLevel := "NAT"
    locationName := "England"
    indicatorValue := .num 200
    filterCols := [("filter_gender", "F :: Female")] }

/-- A two-row table with a single `gender` filter column. -/
def dfGender : DF := mkDF "IND1" [rowM, rowF]

/-- The criteria dict `{"in": ["M"]}`. -/
def critInM : FilterCriteria := { inVals := some ["M"], eqVal := none }

/-! ## C9: time-period parsing and chronological sort -/

/-- C9.  `"2024/2025"` and `"2024"` both parse to September 1 2024, an
unparseable label parses to the missing-value sentinel without failing, and the
time-axis step keeps every row (the output is a permutation of the parsed
rows) and sorts ascending by the parsed point in time (missing values last,
as `sort_values` places them). -/
theorem c9_time_axis :
    period_to_datetime "2024/2025" = some (2024, 9, 1) ∧
    period_to_datetime "2024" = some (2024, 9, 1) ∧
    period_to_datetime "not-a-period" = none ∧
    ∀ rows : List Row,
      (toChronological rows).Perm
          (rows.map (fun r => (period_to_datetime r.timePeriod, r))) ∧
      (toChronological rows).Pairwise (fun a b => tsLeB a.1 b.1 = true) := by
  refine ⟨by decide, by decide, by decide, fun rows => ⟨?_, ?_⟩⟩
  · exact List.perm_insertionSort _ _
  · haveI : IsTotal ChronoRow (fun a b => tsLeB a.1 b.1 = true) :=
      ⟨fun a b => tsLeB_total a.1 b.1⟩
    haveI : IsTrans ChronoRow (fun a b => tsLeB a.1 b.1 = true) :=
      ⟨fun a b c => tsLeB_trans a.1 b.1 c.1⟩
    exact List.sorted_insertionSort _ _

/-! ## C10: prefix-based filter column lookup -/

/-- C10.  The filter step locates the column for a requested dimension by
scanning column order for the first `filter_<dimensionId>` name-prefix match,
not an exact name match: on a table whose columns carry `gender_identity`
before `gender`, the filter for dimension `"gender"` is matched to the
`filter_gender_identity` column even though an exact `filter_gender` column
exists, so filtering for gender `"M"` drops a row whose gender value is
`"M :: Male"` (its `gender_identity` id `"X"` is tested instead). -/
theorem c10_name_collision :
    findMatchingCol dfTwoDims.cols "gender" = some "filter_gender_identity" ∧
    "filter_gender" ∈ dfTwoDims.cols ∧
    rowVal rowMaleNB "filter_gender" = some "M :: Male" ∧
    extract_filter_id "M :: Male" = "M" ∧
    (applyFilters dfTwoDims [("gender", critInM)]).rows = [] := by
  refine ⟨by decide, by decide, by decide, by decide, by decide⟩

/-! ## C5: client-side filtering -/

/-- C5.  Client-side filtering: the id extracted from a composite value is the
part before `" :: "` (the whole string when absent); with a matching column, an
`"in"` criteria retains exactly the rows whose extracted id is in the allowed
set and an `"eq"` criteria exactly those whose extracted id equals the target
(a row missing the column satisfies neither); a dimension with no matching
column leaves the table unchanged without error; and several filter dimensions
are applied sequentially, i.e. compose as logical AND. -/
theorem c5_client_filtering :
    extract_filter_id "M :: Male" = "M" ∧
    extract_filter_id "plain" = "plain" ∧
    (∀ (df : DF) (name : String) (crit : FilterCriteria) (c : String)
        (allowed : List String) (r : Row),
      findMatchingCol df.cols name = some c →
      crit.inVals = some allowed →
      (r ∈ (applyOneFilter df name crit).rows ↔
        r ∈ df.rows ∧ ∃ s, rowVal r c = some s ∧ extract_filter_id s ∈ allowed)) ∧
    (∀ (df : DF) (name : String) (crit : FilterCriteria) (c : String)
        (v : String) (r : Row),
      findMatchingCol df.cols name = some c →
      crit.inVals = none → crit.eqVal = some v →
      (r ∈ (applyOneFilter df name crit).rows ↔
        r ∈ df.rows ∧ ∃ s, rowVal r c = some s ∧ extract_filter_id s = v)) ∧
    (∀ (df : DF) (name : String) (crit : FilterCriteria),
      findMatchingCol df.cols name = none → applyOneFilter df name crit = df) ∧
    (∀ (df : DF) (n1 n2 : String) (c1 c2 : FilterCriteria),
      applyFilters df [(n1, c1), (n2, c2)] =
        applyOneFilter (applyOneFilter df n1 c1) n2 c2) := by
  refine ⟨by decide, by decide, ?_, ?_, ?_, ?_⟩
  · intro df name crit c allowed r hfind hin
    simp only [applyOneFilter, hfind, hin, List.mem_filter]
    constructor
    · rintro ⟨hr, hp⟩
      refine ⟨hr, ?_⟩
      cases hv : rowVal r c with
      | none => rw [hv] at hp; exact absurd hp (by simp)
      | some s => rw [hv] at hp; exact ⟨s, rfl, by simpa using hp⟩
    · rintro ⟨hr, s, hs, hmem⟩
      exact ⟨hr, by simp [hs, hmem]⟩
  · intro df name crit c v r hfind hin heq
    simp only [applyOneFilter, hfind, hin, heq, List.mem_filter]
    constructor
    · rintro ⟨hr, hp⟩
      refine ⟨hr, ?_⟩
      cases hv : rowVal r c with
      | none => rw [hv] at hp; exact absurd hp (by simp)
      | some s => rw [hv] at hp; exact ⟨s, rfl, by simpa using hp⟩
    · rintro ⟨hr, s, hs, hmem⟩
      exact ⟨hr, by simp [hs, hmem]⟩
  · intro df name crit hfind
    simp [applyOneFilter, hfind]
  · intro df n1 n2 c1 c2
    simp [applyFilters]

/-- C5 witness: on the two-row gender table, filtering the `gender` dimension
with `{"in": ["M"]}` retains the male row (its composite `"M :: Male"` extracts
to `"M"`). -/
theorem c5_client_filtering_witness :
    rowM ∈ (applyOneFilter dfGender "gender" critInM).rows :=
  (c5_client_filtering.2.2.1 dfGender "gender" critInM "filter_gender" ["M"] rowM
      (by decide) rfl).mpr
    ⟨by decide, "M :: Male", by decide, by decide⟩

/-! ## C6: unmatched filter dimension -/

/-- C6 counterexample: a requested filter dimension with no corresponding
column in the normalized table does not raise anything in the query layer: on
the gender table, filtering on the absent `ethnicity` dimension returns the
table unchanged, all rows retained. -/
theorem c6_counterexample :
    findMatchingCol dfGender.cols "ethnicity" = none ∧
    applyFilters dfGender [("ethnicity", critInM)] = dfGender := by
  refine ⟨by decide, by decide⟩

/-- C6 amended: when a requested filter dimension has no matching column the
query layer raises no error; the dimension is skipped as a permissive no-op and
the table passes through unchanged. -/
theorem c6_amended (df : DF) (name : String) (crit : FilterCriteria)
    (h : findMatchingCol df.cols name = none) :
    applyOneFilter df name crit = df ∧ applyFilters df [(name, crit)] = df := by
  have h1 : applyOneFilter df name crit = df := by simp [applyOneFilter, h]
  exact ⟨h1, by simp [applyFilters, h1]⟩

/-- C6 amended witness: the no-op at the concrete gender table and the absent
`ethnicity` dimension. -/
theorem c6_amended_witness :
    applyOneFilter dfGender "ethnicity" critInM = dfGender ∧
    applyFilters dfGender [("ethnicity", critInM)] = dfGender :=
  c6_amended dfGender "ethnicity" critInM (by decide)

/-! ## C2: record normalization -/

/-- A scan skips a leading segment in which no element satisfies the
predicate. -/
lemma find?_append_none {α : Type} (p : α → Bool) (l1 l2 : List α)
    (h : ∀ x ∈ l1, p x = false) : (l1 ++ l2).find? p = l2.find? p := by
  induction l1 with
  | nil => simp
  | cons a as ih =>
    have ha : p a = false := h a (List.mem_cons_self a as)
    simp only [List.cons_append, List.find?_cons, ha]
    exact ih (fun x hx => h x (List.mem_cons_of_mem a hx))

/-- C2.  Record normalization: `"42"` parses to the number 42 and
`"suppressed"` does not parse; when the first key of the `values` mapping
containing the requested indicator id as a substring carries a null value the
record is excluded from the output; when it carries a parseable value the row's
indicator value is the parsed number; when it carries an unparseable value the
string is retained; and the row defaults absent time period, geographic level
and location name to `"Unknown"`. -/
theorem c2_normalization :
    pyFloat (JVal.jstr "42") = some 42 ∧
    pyFloat (JVal.jstr "suppressed") = none ∧
    ∀ (ind : String) (vs1 vs2 : List (String × JVal)) (k : String) (v : JVal) (r : RawRecord),
      (∀ p ∈ vs1, occursInL ind.data p.1.data = false) →
      occursInL ind.data k.data = true →
      r.values = vs1 ++ (k, v) :: vs2 →
      ((v = JVal.jnull → normalizeRecords ind [r] = []) ∧
       (∀ q, pyFloat v = some q →
          normalizeRecords ind [r] =
            [{ timePeriod := r.timePeriod.getD "Unknown"
               geographicLevel := r.geographicLevel.getD "Unknown"
               locationName := ((r.locations.head?).map Prod.snd).getD "Unknown"
               indicatorValue := IndVal.num q
               filterCols := r.filters.map (fun p => ("filter_" ++ p.1, p.2)) }]) ∧
       (∀ s, v = JVal.jstr s → pyFloat v = none →
          normalizeRecords ind [r] =
            [{ timePeriod := r.timePeriod.getD "Unknown"
               geographicLevel := r.geographicLevel.getD "Unknown"
               locationName := ((r.locations.head?).map Prod.snd).getD "Unknown"
               indicatorValue := IndVal.str s
               filterCols := r.filters.map (fun p => ("filter_" ++ p.1, p.2)) }])) := by
  refine ⟨by decide, by decide, ?_⟩
  intro ind vs1 vs2 k v r h1 h2 hr
  have hfind : r.values.find? (fun p => occursInL ind.data p.1.data) = some (k, v) := by
    rw [hr, find?_append_none _ _ _ h1, List.find?_cons]
    simp [h2]
  refine ⟨?_, ?_, ?_⟩
  · rintro rfl
    simp [normalizeRecords, normalizeRecord, findIndicatorValue, hfind, pyFloat]
  · intro q hq
    simp [normalizeRecords, normalizeRecord, findIndicatorValue, hfind, hq]
  · rintro s rfl hq
    simp [normalizeRecords, normalizeRecord, findIndicatorValue, hfind, hq]

/-- The raw record of the spec's normalization example, with time period,
geographic level and locations absent. -/
def rec42 : RawRecord :=
  { timePeriod := none
    geographicLevel := none
    locations := []
    values := [("IND1 :: Some Label", JVal.jstr "42")]
    filters := [] }

/-- The normalized row the example record must produce. -/
def row42 : Row :=
  { timePeriod := "Unknown"
    geographicLevel := "Unknown"
    locationName := "Unknown"
    indicatorValue := IndVal.num 42
    filterCols := [] }

/-- C2 witness: the spec example `{"IND1 :: Some Label": "42"}` with requested
indicator `"IND1"` normalizes to one row with numeric value 42 and `"Unknown"`
defaults. -/
theorem c2_normalization_witness :
    normalizeRecords "IND1" [rec42] = [row42] := by
  have h := (c2_normalization.2.2 "IND1" [] [] "IND1 :: Some Label" (JVal.jstr "42") rec42
      (by simp) (by decide) rfl).2.1 42 (by decide)
  simpa [rec42, row42] using h

/-! ## C3 and C4: pagination -/

/-- Once the current page exceeds the total-page count the loop stops with the
accumulated state, whatever fuel remains. -/
lemma paginateLoop_stop (fetch : Nat → PageResponse) (fuel page totalPages : Nat)
    (calls : List Nat) (acc : List RawRecord) (h : ¬ page ≤ totalPages) :
    paginateLoop fetch fuel page totalPages calls acc = FetchOutcome.done calls acc := by
  cases fuel <;> simp [paginateLoop, h]

/-- C3.  When every page response reports `totalPages = 3` and none warns of
no data, the pagination loop performs exactly the three fetches 1, 2, 3 in
page order and accumulates the three pages' records in page order. -/
theorem c3_pagination (fetch : Nat → PageResponse) (fuel : Nat)
    (hfuel : 4 ≤ fuel)
    (htp : ∀ p, (fetch p).totalPages = some 3)
    (hw : ∀ p, hasNoResults (fetch p).warnings = false) :
    fetchAllPages fetch fuel =
      FetchOutcome.done [1, 2, 3]
        ((fetch 1).results ++ (fetch 2).results ++ (fetch 3).results) := by
  obtain ⟨m, rfl⟩ : ∃ m, fuel = m + 4 := ⟨fuel - 4, by omega⟩
  have h4 : ∀ calls acc, paginateLoop fetch m 4 3 calls acc = FetchOutcome.done calls acc :=
    fun calls acc => paginateLoop_stop fetch m 4 3 calls acc (by omega)
  show paginateLoop fetch (m + 1 + 1 + 1 + 1) 1 1 [] [] = _
  simp [paginateLoop, htp, hw, h4]

/-- A record appearing on the witness pages. -/
def recC : RawRecord :=
  { timePeriod := some "2024/2025"
    geographicLevel := some "NAT"
    locations := [("E92000001", "England")]
    values := [("IND1 :: x", JVal.jstr "100")]
    filters := [] }

/-- A fetch function whose every page reports three total pages. -/
def fetchC : Nat → PageResponse :=
  fun _ => { results := [recC], totalPages := some 3, warnings := [] }

/-- C3 witness: with every page reporting `totalPages = 3`, the loop fetches
pages 1, 2, 3 and concatenates their records. -/
theorem c3_pagination_witness :
    fetchAllPages fetchC 4 = FetchOutcome.done [1, 2, 3] [recC, recC, recC] := by
  have h := c3_pagination fetchC 4 (by decide) (fun _ => rfl) (fun _ => rfl)
  simpa [fetchC] using h

/-- C4.  Whenever the pagination loop fetches a page whose warnings contain
the no-data code `"NoResults"` (the `hasNoResults` test is exactly that
membership), it fails at once with the no-data outcome: the offending page is
the last fetch performed and no records are returned, not even those
accumulated from earlier pages. -/
theorem c4_no_data_fast_fail (fetch : Nat → PageResponse)
    (fuel page totalPages : Nat) (calls : List Nat) (acc : List RawRecord)
    (hpage : page ≤ totalPages)
    (hw : hasNoResults (fetch page).warnings = true) :
    (hasNoResults (fetch page).warnings = true ↔
      ∃ w ∈ (fetch page).warnings, w.code = "NoResults") ∧
    paginateLoop fetch (fuel + 1) page totalPages calls acc =
      FetchOutcome.noData (calls ++ [page]) := by
  constructor
  · simp [hasNoResults, List.any_eq_true]
  · simp [paginateLoop, hpage, hw]

/-- A fetch function whose first page carries the no-data warning even while
claiming three total pages and nonempty results. -/
def fetchBad : Nat → PageResponse :=
  fun _ =>
    { results := [recC]
      totalPages := some 3
      warnings := [{ code := "NoResults", message := "No data found" }] }

/-- C4 witness: a first page carrying the `"NoResults"` warning aborts the
whole pagination with the no-data outcome after exactly one fetch and with no
records. -/
theorem c4_no_data_fast_fail_witness :
    fetchAllPages fetchBad 4 = FetchOutcome.noData [1] := by
  have h := (c4_no_data_fast_fail fetchBad 3 1 1 [] [] (by decide) (by decide)).2
  simpa using h

/-! ## C7: result-cache capacity and FIFO eviction -/

/-- An `OrderedDict` assignment grows the mapping by at most one entry. -/
lemma odSet_length_le {κ α : Type} [DecidableEq κ] (cs : List (κ × α)) (k : κ) (v : α) :
    (odSet cs k v).length ≤ cs.length + 1 := by
  unfold odSet
  split
  · simp
  · simp

/-- A cache store keeps the entry count within the capacity of 50. -/
lemma cachePut_length_le {κ α : Type} [DecidableEq κ] (cs : List (κ × α)) (k : κ) (v : α)
    (h : cs.length ≤ 50) : (cachePut cs k v).length ≤ 50 := by
  by_cases h50 : 50 ≤ cs.length
  · calc (cachePut cs k v).length
        = (odSet (cs.drop 1) k v).length := by simp [cachePut, h50]
      _ ≤ (cs.drop 1).length + 1 := odSet_length_le _ _ _
      _ = cs.length - 1 + 1 := by simp
      _ ≤ 50 := by omega
  · calc (cachePut cs k v).length
        = (odSet cs k v).length := by simp [cachePut, h50]
      _ ≤ cs.length + 1 := odSet_length_le _ _ _
      _ ≤ 50 := by omega

/-- Any sequence of cache stores starting within capacity stays within
capacity. -/
lemma foldl_cachePut_le {κ α : Type} [DecidableEq κ] (ops : List (κ × α))
    (c : List (κ × α)) (h : c.length ≤ 50) :
    (ops.foldl (fun c p => cachePut c p.1 p.2) c).length ≤ 50 := by
  induction ops generalizing c with
  | nil => simpa
  | cons p ps ih => exact ih _ (cachePut_length_le _ _ _ h)

/-- C7.  The result cache never exceeds 50 entries: any sequence of stores
starting from the empty cache stays within 50; and a store into a cache
holding exactly 50 entries under a fresh key evicts exactly the single
oldest-inserted entry (the head of insertion order) before appending the new
entry, all other entries surviving in order. -/
theorem c7_fifo_eviction :
    (∀ (α : Type) (ops : List (CacheKey × α)),
      (ops.foldl (fun c p => cachePut c p.1 p.2) ([] : List (CacheKey × α))).length ≤ 50) ∧
    (∀ (α : Type) (cs : List (CacheKey × α)) (k : CacheKey) (v : α),
      cs.length = 50 → cacheGet cs k = none →
      cachePut cs k v = cs.drop 1 ++ [(k, v)]) := by
  constructor
  · intro α ops
    exact foldl_cachePut_le ops [] (by simp)
  · intro α cs k v hlen hget
    have hnone : cs.find? (fun p => decide (p.1 = k)) = none := by
      cases hf : cs.find? (fun p => decide (p.1 = k)) with
      | none => rfl
      | some x => rw [cacheGet, hf] at hget; simp at hget
    have hall : ∀ x ∈ cs, ¬ decide (x.1 = k) = true := List.find?_eq_none.mp hnone
    have hdropall : ∀ x ∈ cs.drop 1, ¬ decide (x.1 = k) = true :=
      fun x hx => hall x (List.mem_of_mem_drop hx)
    have hany : (cs.drop 1).any (fun p => decide (p.1 = k)) = false :=
      List.any_eq_false.mpr hdropall
    have hne : ¬ ((cs.drop 1).any (fun p => decide (p.1 = k)) = true) := by
      rw [hany]; simp
    rw [cachePut, if_pos (by omega), odSet, if_neg hne]

/-- A cache key indexed by the length of its dataset id, giving 51 distinct
concrete keys. -/
def keyN (i : Nat) : CacheKey :=
  { datasetId := String.mk (List.replicate i 'a')
    indicatorId := "IND1"
    geoLevels := []
    periods := []
    filtersKey := none }

/-- A full cache of 50 distinct entries, oldest first. -/
def cache50 : List (CacheKey × Nat) :=
  (List.range 50).map (fun i => (keyN i, i))

/-- C7 witness: storing a 51st distinct key into the full 50-entry cache
evicts exactly the first-inserted entry, and any store sequence from the empty
cache respects the bound. -/
theorem c7_fifo_eviction_witness :
    cachePut cache50 (keyN 50) 50 = cache50.drop 1 ++ [(keyN 50, 50)] ∧
    ((cache50.foldl (fun c p => cachePut c p.1 p.2)
        ([] : List (CacheKey × Nat))).length ≤ 50) :=
  ⟨c7_fifo_eviction.2 Nat cache50 (keyN 50) 50 (by decide) (by decide),
   c7_fifo_eviction.1 Nat cache50⟩

/-! ## C1: cache-key canonicalization -/

/-- A store under a key absent from the cache makes that key retrievable with
the stored value. -/
lemma cacheGet_cachePut_fresh {κ α : Type} [DecidableEq κ] (cs : List (κ × α))
    (k : κ) (v : α) (h : cacheGet cs k = none) :
    cacheGet (cachePut cs k v) k = some v := by
  have hnone : cs.find? (fun p => decide (p.1 = k)) = none := by
    cases hf : cs.find? (fun p => decide (p.1 = k)) with
    | none => rfl
    | some x => rw [cacheGet, hf] at h; simp at h
  have hall : ∀ x ∈ cs, ¬ decide (x.1 = k) = true := List.find?_eq_none.mp hnone
  have hall' : ∀ x ∈ (if 50 ≤ cs.length then cs.drop 1 else cs), ¬ decide (x.1 = k) = true := by
    intro x hx
    split at hx
    · exact hall x (List.mem_of_mem_drop hx)
    · exact hall x hx
  have hany : ((if 50 ≤ cs.length then cs.drop 1 else cs).any
      (fun p => decide (p.1 = k))) = false := List.any_eq_false.mpr hall'
  have hne : ¬ (((if 50 ≤ cs.length then cs.drop 1 else cs).any
      (fun p => decide (p.1 = k))) = true) := by rw [hany]; simp
  rw [cachePut, odSet, if_neg hne, cacheGet,
    find?_append_none _ _ _ (fun x hx => Bool.eq_false_iff.mpr (hall' x hx))]
  simp

/-- The filters dict `{"gender": {"in": ["M", "F"]}}`. -/
def filtersMF : FiltersArg := [("gender", [("in", CritVal.vlist ["M", "F"])])]

/-- The same filters dict with the inner value list reversed:
`{"gender": {"in": ["F", "M"]}}`. -/
def filtersFM : FiltersArg := [("gender", [("in", CritVal.vlist ["F", "M"])])]

/-- C1 counterexample: two semantically equal criteria differing only in the
order of the value list inside the filter dimension's criteria (`["M", "F"]`
versus `["F", "M"]`, a permutation) map to different cache keys —
`make_hashable` sorts dict items but leaves list order alone — so the second
call misses the slot created by the first instead of hitting it. -/
theorem c1_counterexample :
    (["M", "F"] : List String).Perm ["F", "M"] ∧
    cacheKey "ds1" "IND1" ["NAT"] ["2024/2025"] (some filtersMF) ≠
      cacheKey "ds1" "IND1" ["NAT"] ["2024/2025"] (some filtersFM) ∧
    cacheGet
      (cachePut ([] : List (CacheKey × Nat))
        (cacheKey "ds1" "IND1" ["NAT"] ["2024/2025"] (some filtersMF)) 0)
      (cacheKey "ds1" "IND1" ["NAT"] ["2024/2025"] (some filtersFM)) = none := by
  refine ⟨by decide, by decide, by decide⟩

/-- C1 amended: two calls with the same dataset and indicator ids, geo level
codes and period labels that are permutations of each other, and *identical*
filters (including the order of the value lists inside each dimension's
criteria) build the same cache key, and the second call hits the slot created
by the first. -/
theorem c1_amended_cache_key {α : Type} (ds ind : String) (g1 g2 p1 p2 : List String)
    (f : Option FiltersArg) (cache : List (CacheKey × α)) (t : α)
    (hg : g1.Perm g2) (hp : p1.Perm p2)
    (hmiss : cacheGet cache (cacheKey ds ind g1 p1 f) = none) :
    cacheKey ds ind g1 p1 f = cacheKey ds ind g2 p2 f ∧
    cacheGet (cachePut cache (cacheKey ds ind g1 p1 f) t)
      (cacheKey ds ind g2 p2 f) = some t := by
  have hkey : cacheKey ds ind g1 p1 f = cacheKey ds ind g2 p2 f := by
    unfold cacheKey
    rw [sortStrings_perm_eq _ _ hg, sortStrings_perm_eq _ _ hp]
  refine ⟨hkey, ?_⟩
  rw [← hkey]
  exact cacheGet_cachePut_fresh cache _ t hmiss

/-- C1 amended witness: reordered geo level codes and period labels with
identical filters hit the first call's slot on the empty cache. -/
theorem c1_amended_cache_key_witness :
    cacheKey "ds1" "IND1" ["NAT", "REG"] ["2024/2025", "2023/2024"] (some filtersMF) =
      cacheKey "ds1" "IND1" ["REG", "NAT"] ["2023/2024", "2024/2025"] (some filtersMF) ∧
    cacheGet
      (cachePut ([] : List (CacheKey × Nat))
        (cacheKey "ds1" "IND1" ["NAT", "REG"] ["2024/2025", "2023/2024"] (some filtersMF)) 7)
      (cacheKey "ds1" "IND1" ["REG", "NAT"] ["2023/2024", "2024/2025"] (some filtersMF)) =
      some 7 :=
  c1_amended_cache_key "ds1" "IND1" ["NAT", "REG"] ["REG", "NAT"]
    ["2024/2025", "2023/2024"] ["2023/2024", "2024/2025"] (some filtersMF) [] 7
    (by decide) (by decide) rfl

/-! ## C8: cache-hit equality and copy independence -/

/-- C8.  Over the reference model: calling `query_dataset` twice with the same
key and no intervening state change returns structurally equal tables (both
read back as the computed table); the reference the caller receives is never
the reference the cache holds; mutating either returned table leaves the
cached object unchanged; and a further lookup after such a mutation still
returns the originally computed table. -/
theorem c8_copy_independence (compute : CacheKey → Tbl) (k : CacheKey) (t' : Tbl) :
    let st0 : QState := ⟨⟨[]⟩, []⟩
    let c1 := query_dataset compute st0 k
    let c2 := query_dataset compute c1.1 k
    readT c1.1.heap c1.2 = compute k ∧
    readT c2.1.heap c2.2 = compute k ∧
    cacheGet c2.1.cache k = some 1 ∧
    c1.2 ≠ 1 ∧ c2.2 ≠ 1 ∧
    readT (writeT c2.1.heap c1.2 t') 1 = compute k ∧
    readT (writeT c2.1.heap c2.2 t') 1 = compute k ∧
    (let st3 : QState := ⟨writeT c2.1.heap c2.2 t', c2.1.cache⟩
     let c3 := query_dataset compute st3 k
     readT c3.1.heap c3.2 = compute k) := by
  intro st0 c1 c2
  simp [st0, c1, c2, query_dataset, cacheGet, cachePut, odSet, alloc, readT, writeT,
    List.find?, List.getD, List.set]
